import Mathlib

/-!
# Incident response backend (backend-go/main.go)

A shallow embedding of the two HTTP handlers of the Go backend, `ingestHandler`
and `incidentsHandler`, and of the classification client `callAIEngine`.

The two external collaborators (the classification endpoint and the PostgreSQL
table `incidents`) are not part of the program. Their behaviour on one call is an
explicit argument of the handler (a reply value), and the contents of the table
are passed and returned explicitly. Every handler also returns the list of
outbound calls it made, in order.
-/

namespace IncidentResponse

/-! ## Data model -/

/-- Go `time.Time`, as the nanoseconds elapsed since the zero time (January 1 of
year 1, 00:00:00 UTC); `0` is the zero value. -/
abbrev Time := Int

/-- The nanoseconds of one day. -/
def nanosPerDay : Int := 86400 * 1000000000

/-- Whether `Time.MarshalJSON` accepts the timestamp, which it does when the year
lies in 0..9999. Year 0 is a leap year and begins 366 days before the zero time;
the years 1 to 9999 have 3652059 days, so year 10000 begins that many days after it. -/
def marshalableTime (t : Time) : Bool :=
  decide (-366 * nanosPerDay ≤ t) && decide (t < 3652059 * nanosPerDay)

/-- The struct `Incident` (main.go, lines 20-27). -/
structure Incident where
  ID : Int
  Message : String
  Category : String
  Severity : String
  Action : String
  CreatedAt : Time
deriving DecidableEq, Repr

/-- The value of `var inc Incident`: every field at its zero value. -/
def Incident.zero : Incident := ⟨0, "", "", "", "", 0⟩

/-- The rows of the table `incidents`, in the order they were inserted. -/
abbrev Table := List Incident

/-- The constraint `id SERIAL PRIMARY KEY` (main.go, line 68): no two rows share an id. -/
def uniqueIds (t : Table) : Prop := (t.map Incident.ID).Nodup

instance (t : Table) : Decidable (uniqueIds t) := by
  unfold uniqueIds; infer_instance

/-- An outbound call made by a handler. -/
inductive Call where
  /-- The call `http.Post` to the classification endpoint with body `text`. -/
  | aiPost (text : String)
  /-- The statement `INSERT INTO incidents ... RETURNING id, created_at`. -/
  | dbInsert (message category severity action : String)
  /-- The statement `SELECT ... FROM incidents ORDER BY id DESC`. -/
  | dbSelect
deriving DecidableEq, Repr

/-- Whether an outbound call is the insert statement. -/
def Call.isInsert : Call → Bool
  | .dbInsert _ _ _ _ => true
  | _ => false

/-! ## HTTP responses -/

/-- A value handed to `json.NewEncoder(w).Encode`, up to the text of its encoding. -/
inductive Json where
  /-- The JSON value `null`. -/
  | null
  /-- A JSON array of incident objects. -/
  | array (items : List Incident)
  /-- One incident object. -/
  | object (inc : Incident)
deriving DecidableEq, Repr

/-- Whether `encoding/json` can marshal the value: every timestamp in it must be
accepted by `Time.MarshalJSON`; strings and integers always are. -/
def Json.marshalable : Json → Bool
  | .null => true
  | .array items => items.all (fun inc => marshalableTime inc.CreatedAt)
  | .object inc => marshalableTime inc.CreatedAt

/-- The body of a response. -/
inductive Body where
  /-- Nothing was written to the body. -/
  | empty
  /-- Plain text, as written by `http.Error`. -/
  | text (s : String)
  /-- A JSON document, as written by `json.NewEncoder(w).Encode`. -/
  | json (v : Json)
deriving DecidableEq, Repr

/-- The response written to `w`: status code, `Content-Type` header and body. -/
structure Response where
  status : Nat
  contentType : String
  body : Body
deriving DecidableEq, Repr

/-- Go `http.StatusOK`, the status of a response on which `WriteHeader` was never called. -/
def StatusOK : Nat := 200
/-- Go `http.StatusBadRequest`. -/
def StatusBadRequest : Nat := 400
/-- Go `http.StatusInternalServerError`. -/
def StatusInternalServerError : Nat := 500

/-- Go `http.Error(w, msg, code)`: a plain-text response with the message and a newline. -/
def httpError (msg : String) (code : Nat) : Response :=
  ⟨code, "text/plain; charset=utf-8", .text (msg ++ "\n")⟩

/-- The two statements `w.Header().Set("Content-Type", "application/json")` and
`json.NewEncoder(w).Encode(v)` that end both handlers (main.go, lines 171-172 and
191-192). `Encode` marshals the whole value before it writes anything, and the
handlers discard its error: when the value cannot be marshalled the body stays
empty, and the status is 200 in both cases because `WriteHeader` is never called. -/
def writeJSON (v : Json) : Response :=
  if v.marshalable then
    ⟨StatusOK, "application/json", .json v⟩
  else
    ⟨StatusOK, "application/json", .empty⟩

/-- The incidents carried by a response: the items of a JSON array body, the one
incident of an object body, none otherwise. -/
def Response.incidents (r : Response) : List Incident :=
  match r.body with
  | .json (.array items) => items
  | .json (.object inc) => [inc]
  | _ => []

/-- What a handler did: the response, the table afterwards, the outbound calls in order. -/
structure Outcome where
  resp : Response
  table : Table
  calls : List Call
deriving DecidableEq, Repr

/-! ## Classification client -/

/-- What `json.Unmarshal` makes of the body of the classification reply. -/
inductive AIBody where
  /-- The body is not a JSON object (a syntax error, a truncated read, another JSON
  value): `json.Unmarshal` returns an error and leaves `result` untouched. -/
  | malformed
  /-- The body is a JSON object; `category` and `severity` are the strings that
  `json.Unmarshal` stores in the fields `Category` and `Severity` of `result`, `none`
  for a field in which it stores nothing. -/
  | object (category severity : Option String)
deriving DecidableEq, Repr

/-- The outcome of `http.Post` to the classification endpoint. -/
inductive AIReply where
  /-- The call `http.Post` returns a non-nil error. -/
  | unreachable (err : String)
  /-- The call `http.Post` returns a response with this body (whatever its status code). -/
  | responded (body : AIBody)
deriving DecidableEq, Repr

/-- The local struct `result` of `callAIEngine` (main.go, lines 106-109). -/
structure AIResult where
  Category : String
  Severity : String
deriving DecidableEq, Repr

/-- The call `json.Unmarshal(bodyBytes, &result)` (main.go, line 111); its error is
discarded by the caller, so only the effect on `result` is kept. -/
def unmarshalResult (body : AIBody) (result : AIResult) : AIResult :=
  match body with
  | .malformed => result
  | .object category severity =>
    { Category := category.getD result.Category
      Severity := severity.getD result.Severity }

/-- The block `// Auto action rules` of `callAIEngine` (main.go, lines 113-119). -/
def autoAction (severity : String) : String :=
  let action := "No action required"
  if severity = "critical" then
    "Escalate immediately"
  else if severity = "high" then
    "Investigate within 30 minutes"
  else
    action

/-- The function `callAIEngine` (main.go, lines 88-122): category, severity and
action, or the error of `http.Post`. -/
def callAIEngine (_message : String) (reply : AIReply) :
    Except String (String × String × String) :=
  match reply with
  | .unreachable err => .error err
  | .responded body =>
    let result := unmarshalResult body ⟨"", ""⟩
    let action := autoAction result.Severity
    .ok (result.Category, result.Severity, action)

/-! ## Storage -/

/-- The outcome of the `INSERT ... RETURNING id, created_at` statement. -/
inductive InsertReply where
  /-- The statement fails (constraint violation, connection lost before the statement
  ran); no row is written. -/
  | failed (err : String)
  /-- The store assigns this id and timestamp to the new row and returns them. -/
  | assigned (id : Int) (created : Time)
  /-- The store writes the new row with this id and timestamp, but the call returns
  an error (the connection is lost before the reply arrives). -/
  | lostReply (id : Int) (created : Time) (err : String)
deriving DecidableEq, Repr

/-- The call `db.QueryRow(query, message, category, severity, action).Scan(&id, &created)`
(main.go, lines 147-156): what the caller gets, and the table afterwards. The
statement appends the whole row or nothing; an id that is already in the table
violates the primary key and fails. The caller sees only the error, not whether
the row was written. -/
def insertIncident (t : Table) (reply : InsertReply)
    (message category severity action : String) : Except String (Int × Time) × Table :=
  match reply with
  | .failed err => (.error err, t)
  | .assigned id created =>
    if id ∈ t.map Incident.ID then
      (.error "pq: duplicate key value violates unique constraint", t)
    else
      (.ok (id, created), t ++ [⟨id, message, category, severity, action, created⟩])
  | .lostReply id created err =>
    if id ∈ t.map Incident.ID then
      (.error "pq: duplicate key value violates unique constraint", t)
    else
      (.error err, t ++ [⟨id, message, category, severity, action, created⟩])

/-- The result set of `SELECT ... FROM incidents ORDER BY id DESC` (main.go, line 176).
Under the primary key the order is determined by the ids alone. -/
def selectAll (t : Table) : List Incident :=
  t.insertionSort (fun a b => b.ID ≤ a.ID)

/-- The outcome of reading one row of the result set. -/
inductive RowRead where
  /-- The call `rows.Next()` is true and `rows.Scan` fills all six destinations. -/
  | ok
  /-- The call `rows.Next()` is true and `rows.Scan` returns an error at the column of
  index `filled`: the destinations before it are set, the others are untouched. -/
  | scanErr (filled : Nat)
  /-- The call `rows.Next()` is false because the iteration failed (`rows.Err()` would
  be non-nil): the loop ends. -/
  | nextErr
deriving DecidableEq, Repr

/-- The outcome of `db.Query`. -/
inductive QueryReply where
  /-- The call `db.Query` returns a non-nil error. -/
  | failed (err : String)
  /-- The query succeeds; `reads` gives the outcome of reading the rows, in order, and
  rows beyond its end are read without error. -/
  | rows (reads : List RowRead)
deriving DecidableEq, Repr

/-- The call `rows.Scan(&inc.ID, &inc.Message, &inc.Category, &inc.Severity, &inc.Action,
&inc.CreatedAt)` that assigns only the first `n` destinations. -/
def scanInto (inc row : Incident) (n : Nat) : Incident :=
  { ID := if 0 < n then row.ID else inc.ID
    Message := if 1 < n then row.Message else inc.Message
    Category := if 2 < n then row.Category else inc.Category
    Severity := if 3 < n then row.Severity else inc.Severity
    Action := if 4 < n then row.Action else inc.Action
    CreatedAt := if 5 < n then row.CreatedAt else inc.CreatedAt }

/-- Go `append(list, inc)` on a slice that may be nil (`none`). -/
def goAppend (list : Option (List Incident)) (inc : Incident) : Option (List Incident) :=
  match list with
  | none => some [inc]
  | some l => some (l ++ [inc])

/-- The loop `for rows.Next() { ... }` of `incidentsHandler` (main.go, lines 185-189):
the error of `rows.Scan` is discarded and `rows.Err()` is never consulted. -/
def readRows : List Incident → List RowRead → Option (List Incident) → Option (List Incident)
  | [], _, list => list
  | row :: rest, [], list => readRows rest [] (goAppend list row)
  | row :: rest, .ok :: reads, list => readRows rest reads (goAppend list row)
  | row :: rest, .scanErr n :: reads, list =>
    readRows rest reads (goAppend list (scanInto Incident.zero row n))
  | _ :: _, .nextErr :: _, list => list

/-- Go `encoding/json` on a value of type `[]Incident`: a nil slice encodes as `null`,
any other slice as an array. -/
def encodeList (list : Option (List Incident)) : Json :=
  match list with
  | none => .null
  | some l => .array l

/-! ## Handlers -/

/-- The body of a `POST /ingest` request, as `json.NewDecoder(r.Body).Decode` sees it. -/
inductive ReqBody where
  /-- The body is not a JSON object: `Decode` fails and leaves `payload` untouched. -/
  | undecodable
  /-- The body is a JSON object; `message` is its string member that `Decode` stores in
  `payload.Message` (`none` when absent, `null` or not a string), `extra` its other
  members, which `payload` has no field for. -/
  | object (message : Option String) (extra : List (String × String))
deriving DecidableEq, Repr

/-- The field `payload.Message` after `json.NewDecoder(r.Body).Decode(&payload)`
(main.go, lines 129-133), the error of `Decode` being discarded. -/
def decodePayload (body : ReqBody) : String :=
  match body with
  | .undecodable => ""
  | .object message _ => message.getD ""

/-- The function `ingestHandler` (main.go, lines 128-173). -/
def ingestHandler (body : ReqBody) (ai : AIReply) (ins : InsertReply) (t : Table) : Outcome :=
  let message := decodePayload body
  if message = "" then
    ⟨httpError "Message required" StatusBadRequest, t, []⟩
  else
    match callAIEngine message ai with
    | .error err =>
      ⟨httpError ("AI Engine error: " ++ err) StatusInternalServerError, t, [.aiPost message]⟩
    | .ok (category, severity, action) =>
      match insertIncident t ins message category severity action with
      | (.error err, t1) =>
        ⟨httpError ("DB insert error: " ++ err) StatusInternalServerError, t1,
          [.aiPost message, .dbInsert message category severity action]⟩
      | (.ok (id, created), t1) =>
        ⟨writeJSON (.object ⟨id, message, category, severity, action, created⟩), t1,
          [.aiPost message, .dbInsert message category severity action]⟩

/-- The function `incidentsHandler` (main.go, lines 175-193). -/
def incidentsHandler (q : QueryReply) (t : Table) : Outcome :=
  match q with
  | .failed err =>
    ⟨httpError ("DB query error: " ++ err) StatusInternalServerError, t, [.dbSelect]⟩
  | .rows reads =>
    let list := readRows (selectAll t) reads none
    ⟨writeJSON (encodeList list), t, [.dbSelect]⟩

/-- One request to the service together with the behaviour of the collaborators
while it is served. -/
inductive Request where
  /-- The route `POST /ingest`. -/
  | ingest (body : ReqBody) (ai : AIReply) (ins : InsertReply)
  /-- The route `GET /incidents`. -/
  | list (q : QueryReply)
deriving DecidableEq, Repr

/-- The router of `main` (main.go, lines 204-206). -/
def serve (req : Request) (t : Table) : Outcome :=
  match req with
  | .ingest body ai ins => ingestHandler body ai ins t
  | .list q => incidentsHandler q t

/-- The table after serving the requests one after the other. -/
def run (reqs : List Request) (t : Table) : Table :=
  reqs.foldl (fun acc req => (serve req acc).table) t



/-! ## Shared lemmas on the handlers -/

theorem autoAction_cases (s : String) :
    autoAction s = "Escalate immediately" ∨
    autoAction s = "Investigate within 30 minutes" ∨
    autoAction s = "No action required" := by
  unfold autoAction
  by_cases h1 : s = "critical"
  · simp [h1]
  · by_cases h2 : s = "high"
    · simp [h2]
    · simp [h1, h2]

theorem callAIEngine_responded (message : String) (body : AIBody) :
    callAIEngine message (.responded body) =
      .ok ((unmarshalResult body ⟨"", ""⟩).Category, (unmarshalResult body ⟨"", ""⟩).Severity,
        autoAction (unmarshalResult body ⟨"", ""⟩).Severity) := rfl

theorem callAIEngine_ok_inv (message : String) (ai : AIReply) (c s a : String)
    (h : callAIEngine message ai = .ok (c, s, a)) :
    ∃ ab, ai = .responded ab ∧ c = (unmarshalResult ab ⟨"", ""⟩).Category ∧
      s = (unmarshalResult ab ⟨"", ""⟩).Severity ∧ a = autoAction s := by
  cases ai with
  | unreachable err => simp [callAIEngine] at h
  | responded ab =>
    simp only [callAIEngine, Except.ok.injEq, Prod.mk.injEq] at h
    obtain ⟨hc, hs, ha⟩ := h
    exact ⟨ab, rfl, hc.symm, hs.symm, by rw [← ha, ← hs]⟩

theorem insertIncident_ok (t : Table) (ins : InsertReply) (m c s a : String) (id : Int)
    (created : Time) (h : (insertIncident t ins m c s a).1 = .ok (id, created)) :
    id ∉ t.map Incident.ID ∧
    (insertIncident t ins m c s a).2 = t ++ [⟨id, m, c, s, a, created⟩] := by
  cases ins with
  | failed e => simp [insertIncident] at h
  | assigned i cr =>
    by_cases hid : i ∈ t.map Incident.ID
    · simp only [insertIncident, if_pos hid] at h
      cases h
    · simp only [insertIncident, if_neg hid, Except.ok.injEq, Prod.mk.injEq] at h
      obtain ⟨h1, h2⟩ := h
      subst h1 h2
      exact ⟨hid, by simp only [insertIncident, if_neg hid]⟩
  | lostReply i cr e =>
    by_cases hid : i ∈ t.map Incident.ID
    · simp only [insertIncident, if_pos hid] at h
      cases h
    · simp only [insertIncident, if_neg hid] at h
      cases h

theorem insertIncident_table (t : Table) (ins : InsertReply) (m c s a : String) :
    (insertIncident t ins m c s a).2 = t ∨
    ∃ id created, id ∉ t.map Incident.ID ∧
      (insertIncident t ins m c s a).2 = t ++ [⟨id, m, c, s, a, created⟩] := by
  cases ins with
  | failed e => exact Or.inl rfl
  | assigned i cr =>
    by_cases hid : i ∈ t.map Incident.ID
    · exact Or.inl (by simp only [insertIncident, if_pos hid])
    · exact Or.inr ⟨i, cr, hid, by simp only [insertIncident, if_neg hid]⟩
  | lostReply i cr e =>
    by_cases hid : i ∈ t.map Incident.ID
    · exact Or.inl (by simp only [insertIncident, if_pos hid])
    · exact Or.inr ⟨i, cr, hid, by simp only [insertIncident, if_neg hid]⟩

theorem insertIncident_rejected (t : Table) (ins : InsertReply) (m c s a err : String)
    (h : (insertIncident t ins m c s a).1 = .error err)
    (hlost : ∀ id created e, ins ≠ .lostReply id created e) :
    (insertIncident t ins m c s a).2 = t := by
  cases ins with
  | failed e => rfl
  | assigned i cr =>
    by_cases hid : i ∈ t.map Incident.ID
    · simp only [insertIncident, if_pos hid]
    · simp [insertIncident, hid] at h
  | lostReply i cr e => exact absurd rfl (hlost i cr e)

theorem ingestHandler_empty (body : ReqBody) (ai : AIReply) (ins : InsertReply) (t : Table)
    (h : decodePayload body = "") :
    ingestHandler body ai ins t = ⟨httpError "Message required" StatusBadRequest, t, []⟩ := by
  simp [ingestHandler, h]

theorem ingestHandler_unreachable (body : ReqBody) (err : String) (ins : InsertReply)
    (t : Table) (h : decodePayload body ≠ "") :
    ingestHandler body (.unreachable err) ins t =
      ⟨httpError ("AI Engine error: " ++ err) StatusInternalServerError, t,
        [.aiPost (decodePayload body)]⟩ := by
  simp [ingestHandler, h, callAIEngine]

theorem ingestHandler_insert_error (body : ReqBody) (ai : AIReply) (ins : InsertReply)
    (t : Table) (c s a err : String) (hm : decodePayload body ≠ "")
    (hcls : callAIEngine (decodePayload body) ai = .ok (c, s, a))
    (hins : (insertIncident t ins (decodePayload body) c s a).1 = .error err) :
    ingestHandler body ai ins t =
      ⟨httpError ("DB insert error: " ++ err) StatusInternalServerError,
        (insertIncident t ins (decodePayload body) c s a).2,
        [.aiPost (decodePayload body), .dbInsert (decodePayload body) c s a]⟩ := by
  rcases hres : insertIncident t ins (decodePayload body) c s a with ⟨r, t1⟩
  rw [hres] at hins
  simp only at hins
  subst hins
  simp only [ingestHandler, if_neg hm, hcls, hres]

theorem ingestHandler_insert_ok (body : ReqBody) (ai : AIReply) (ins : InsertReply)
    (t : Table) (c s a : String) (id : Int) (created : Time) (hm : decodePayload body ≠ "")
    (hcls : callAIEngine (decodePayload body) ai = .ok (c, s, a))
    (hins : (insertIncident t ins (decodePayload body) c s a).1 = .ok (id, created)) :
    ingestHandler body ai ins t =
      ⟨writeJSON (.object ⟨id, decodePayload body, c, s, a, created⟩),
        t ++ [⟨id, decodePayload body, c, s, a, created⟩],
        [.aiPost (decodePayload body), .dbInsert (decodePayload body) c s a]⟩ := by
  have h2 := (insertIncident_ok t ins _ c s a id created hins).2
  rcases hres : insertIncident t ins (decodePayload body) c s a with ⟨r, t1⟩
  rw [hres] at hins h2
  simp only at hins h2
  subst hins h2
  simp only [ingestHandler, if_neg hm, hcls, hres]

/-- The response to a stored incident whose timestamp `Time.MarshalJSON` rejects:
status 200 and an empty body. -/
theorem ingestHandler_unmarshalable (body : ReqBody) (ai : AIReply) (ins : InsertReply)
    (t : Table) (c s a : String) (id : Int) (created : Time) (hm : decodePayload body ≠ "")
    (hcls : callAIEngine (decodePayload body) ai = .ok (c, s, a))
    (hins : (insertIncident t ins (decodePayload body) c s a).1 = .ok (id, created))
    (htime : marshalableTime created = false) :
    (ingestHandler body ai ins t).resp = ⟨200, "application/json", .empty⟩ := by
  rw [ingestHandler_insert_ok body ai ins t c s a id created hm hcls hins]
  simp [writeJSON, Json.marshalable, htime, StatusOK]

/-! ## Listing -/

theorem readRows_all_ok (rows : List Incident) :
    ∀ (reads : List RowRead) (list : Option (List Incident)), (∀ r ∈ reads, r = RowRead.ok) →
      readRows rows reads list = if rows = [] then list else some (list.getD [] ++ rows) := by
  induction rows with
  | nil => intro reads list _; simp [readRows]
  | cons row rest ih =>
    intro reads list hreads
    cases reads with
    | nil =>
      rw [readRows, ih [] _ hreads]
      cases list <;> by_cases hr : rest = [] <;> simp [goAppend, hr]
    | cons rd reads =>
      have hrd : rd = RowRead.ok := hreads rd (List.mem_cons_self _ _)
      subst hrd
      rw [readRows, ih reads _ (fun r hr => hreads r (List.mem_cons_of_mem _ hr))]
      cases list <;> by_cases hr : rest = [] <;> simp [goAppend, hr]

theorem selectAll_perm (t : Table) : (selectAll t).Perm t :=
  List.perm_insertionSort _ t

theorem incidentsHandler_all_ok (t : Table) (reads : List RowRead)
    (hreads : ∀ r ∈ reads, r = RowRead.ok)
    (htime : ∀ r ∈ t, marshalableTime r.CreatedAt = true) :
    (incidentsHandler (.rows reads) t).resp.status = 200 ∧
    (incidentsHandler (.rows reads) t).resp.incidents = selectAll t ∧
    ((incidentsHandler (.rows reads) t).resp.body = .json (.array (selectAll t)) ∨
      (t = [] ∧ (incidentsHandler (.rows reads) t).resp.body = .json .null)) := by
  have hsel : ∀ r ∈ selectAll t, marshalableTime r.CreatedAt = true :=
    fun r hr => htime r ((selectAll_perm t).mem_iff.1 hr)
  by_cases hnil : selectAll t = []
  · have ht : t = [] := by
      have := selectAll_perm t
      rw [hnil] at this
      exact List.Perm.nil_eq this |>.symm
    subst ht
    simp [incidentsHandler, readRows_all_ok _ reads none hreads, hnil, encodeList, writeJSON,
      Json.marshalable, Response.incidents, StatusOK]
  · have hm : (Json.array (selectAll t)).marshalable = true := by
      simp only [Json.marshalable, List.all_eq_true]
      exact hsel
    simp [incidentsHandler, readRows_all_ok _ reads none hreads, hnil, encodeList, writeJSON,
      hm, Response.incidents, StatusOK]

theorem selectAll_descending (t : Table) (hpk : uniqueIds t) :
    ((selectAll t).map Incident.ID).Sorted (· > ·) := by
  haveI : IsTotal Incident (fun a b => b.ID ≤ a.ID) := ⟨fun a b => le_total b.ID a.ID⟩
  haveI : IsTrans Incident (fun a b => b.ID ≤ a.ID) := ⟨fun _ _ _ h1 h2 => le_trans h2 h1⟩
  have hs : (selectAll t).Pairwise (fun a b => b.ID ≤ a.ID) :=
    List.sorted_insertionSort (fun a b : Incident => b.ID ≤ a.ID) t
  have hn : ((selectAll t).map Incident.ID).Nodup :=
    (((selectAll_perm t).map Incident.ID).nodup_iff).2 hpk
  have hn2 : (selectAll t).Pairwise (fun a b => a.ID ≠ b.ID) := by
    unfold List.Nodup at hn
    exact List.pairwise_map.1 hn
  unfold List.Sorted
  rw [List.pairwise_map]
  exact (hs.and hn2).imp (fun h => lt_of_le_of_ne h.1 (Ne.symm h.2))

theorem selectAll_append_newest (t : Table) (x : Incident) (hx : ∀ r ∈ t, r.ID < x.ID) :
    selectAll (t ++ [x]) = x :: selectAll t := by
  induction t with
  | nil => rfl
  | cons a l ih =>
    have hl : ∀ r ∈ l, r.ID < x.ID := fun r hr => hx r (List.mem_cons_of_mem _ hr)
    have ha : ¬ x.ID ≤ a.ID := not_le.2 (hx a (List.mem_cons_self _ _))
    have ih2 : List.insertionSort (fun a b : Incident => b.ID ≤ a.ID) (l ++ [x]) =
        x :: List.insertionSort (fun a b : Incident => b.ID ≤ a.ID) l := ih hl
    show List.orderedInsert _ a (List.insertionSort _ (l ++ [x])) =
      x :: List.orderedInsert _ a (List.insertionSort _ l)
    rw [ih2, List.orderedInsert, if_neg ha]

/-! ## How a request changes the table -/

theorem ingestHandler_table (body : ReqBody) (ai : AIReply) (ins : InsertReply) (t : Table) :
    (ingestHandler body ai ins t).table = t ∨
    ∃ inc, (ingestHandler body ai ins t).table = t ++ [inc] ∧
      inc.Message ≠ "" ∧ inc.Action = autoAction inc.Severity ∧
      inc.ID ∉ t.map Incident.ID := by
  by_cases hm : decodePayload body = ""
  · left
    rw [ingestHandler_empty body ai ins t hm]
  · cases ai with
    | unreachable err =>
      left
      rw [ingestHandler_unreachable body err ins t hm]
    | responded ab =>
      have hcls := callAIEngine_responded (decodePayload body) ab
      have htab : (ingestHandler body (.responded ab) ins t).table =
          (insertIncident t ins (decodePayload body) (unmarshalResult ab ⟨"", ""⟩).Category
            (unmarshalResult ab ⟨"", ""⟩).Severity
            (autoAction (unmarshalResult ab ⟨"", ""⟩).Severity)).2 := by
        rcases hres : (insertIncident t ins (decodePayload body)
            (unmarshalResult ab ⟨"", ""⟩).Category (unmarshalResult ab ⟨"", ""⟩).Severity
            (autoAction (unmarshalResult ab ⟨"", ""⟩).Severity)).1 with err | ⟨id, created⟩
        · rw [ingestHandler_insert_error body _ ins t _ _ _ err hm hcls hres]
        · rw [ingestHandler_insert_ok body _ ins t _ _ _ id created hm hcls hres]
          exact (insertIncident_ok _ _ _ _ _ _ _ _ hres).2.symm
      rw [htab]
      rcases insertIncident_table t ins (decodePayload body)
          (unmarshalResult ab ⟨"", ""⟩).Category (unmarshalResult ab ⟨"", ""⟩).Severity
          (autoAction (unmarshalResult ab ⟨"", ""⟩).Severity) with h | ⟨id, created, hid, h⟩
      · exact Or.inl h
      · exact Or.inr ⟨_, h, hm, rfl, hid⟩

theorem ingestHandler_table_of_resp (body : ReqBody) (ai : AIReply) (ins : InsertReply)
    (t : Table) (inc : Incident)
    (h : (ingestHandler body ai ins t).resp = ⟨200, "application/json", .json (.object inc)⟩) :
    (ingestHandler body ai ins t).table = t ++ [inc] ∧
      marshalableTime inc.CreatedAt = true := by
  by_cases hm : decodePayload body = ""
  · rw [ingestHandler_empty body ai ins t hm] at h
    simp [httpError, StatusBadRequest] at h
  · cases ai with
    | unreachable err =>
      rw [ingestHandler_unreachable body err ins t hm] at h
      simp [httpError, StatusInternalServerError] at h
    | responded ab =>
      have hcls := callAIEngine_responded (decodePayload body) ab
      rcases hres : (insertIncident t ins (decodePayload body)
          (unmarshalResult ab ⟨"", ""⟩).Category (unmarshalResult ab ⟨"", ""⟩).Severity
          (autoAction (unmarshalResult ab ⟨"", ""⟩).Severity)).1 with err | ⟨id, created⟩
      · rw [ingestHandler_insert_error body _ ins t _ _ _ err hm hcls hres] at h
        simp [httpError, StatusInternalServerError] at h
      · rw [ingestHandler_insert_ok body _ ins t _ _ _ id created hm hcls hres] at h ⊢
        by_cases hts : marshalableTime created = true
        · simp only [writeJSON, Json.marshalable, hts, if_true, Response.mk.injEq,
            Body.json.injEq, Json.object.injEq] at h
          rw [← h.2.2]
          exact ⟨rfl, hts⟩
        · simp [writeJSON, Json.marshalable, hts] at h

theorem incidentsHandler_table (q : QueryReply) (t : Table) :
    (incidentsHandler q t).table = t := by
  cases q <;> rfl

/-- The invariant of the rows of the table: a non-empty message and an action that is
the action rule applied to the severity of the same row. -/
theorem serve_preserves_rows (req : Request) (t : Table)
    (h : ∀ r ∈ t, r.Message ≠ "" ∧ r.Action = autoAction r.Severity) :
    ∀ r ∈ (serve req t).table, r.Message ≠ "" ∧ r.Action = autoAction r.Severity := by
  cases req with
  | list q =>
    show ∀ r ∈ (incidentsHandler q t).table, _
    rw [incidentsHandler_table]; exact h
  | ingest body ai ins =>
    show ∀ r ∈ (ingestHandler body ai ins t).table, _
    rcases ingestHandler_table body ai ins t with ht | ⟨inc, ht, h1, h2, _⟩
    · rw [ht]; exact h
    · rw [ht]
      intro r hr
      rcases List.mem_append.1 hr with hr | hr
      · exact h r hr
      · rw [List.mem_singleton.1 hr]; exact ⟨h1, h2⟩

theorem serve_preserves_uniqueIds (req : Request) (t : Table) (h : uniqueIds t) :
    uniqueIds (serve req t).table := by
  cases req with
  | list q =>
    show uniqueIds (incidentsHandler q t).table
    rw [incidentsHandler_table]; exact h
  | ingest body ai ins =>
    show uniqueIds (ingestHandler body ai ins t).table
    rcases ingestHandler_table body ai ins t with ht | ⟨inc, ht, _, _, hid⟩
    · rw [ht]; exact h
    · rw [ht]
      unfold uniqueIds at h ⊢
      rw [List.map_append, List.nodup_append]
      refine ⟨h, by simp, ?_⟩
      intro a ha hb
      simp only [List.map_cons, List.map_nil, List.mem_singleton] at hb
      subst hb
      exact hid ha

theorem run_preserves (reqs : List Request) :
    ∀ t : Table, (∀ r ∈ t, r.Message ≠ "" ∧ r.Action = autoAction r.Severity) → uniqueIds t →
      (∀ r ∈ run reqs t, r.Message ≠ "" ∧ r.Action = autoAction r.Severity) ∧
        uniqueIds (run reqs t) := by
  induction reqs with
  | nil => intro t h1 h2; exact ⟨h1, h2⟩
  | cons req rest ih =>
    intro t h1 h2
    exact ih (serve req t).table (serve_preserves_rows req t h1)
      (serve_preserves_uniqueIds req t h2)

/-! ## The claims -/

/-- C1: the action computed in `callAIEngine` is a total function of the severity
alone: "Escalate immediately" for exactly "critical", "Investigate within 30 minutes"
for exactly "high", "No action required" for every other string (the empty string,
"Critical" and "HIGH" among them), never a fourth value; and whenever the endpoint
answers, the action `callAIEngine` returns is that function of the severity it returns. -/
theorem C1_autoAction_total (s : String) :
    (s = "critical" → autoAction s = "Escalate immediately") ∧
    (s = "high" → autoAction s = "Investigate within 30 minutes") ∧
    (s ≠ "critical" → s ≠ "high" → autoAction s = "No action required") ∧
    autoAction "" = "No action required" ∧
    autoAction "Critical" = "No action required" ∧
    autoAction "HIGH" = "No action required" ∧
    (autoAction s = "Escalate immediately" ∨
      autoAction s = "Investigate within 30 minutes" ∨
      autoAction s = "No action required") ∧
    (∀ (message : String) (category : Option String),
      callAIEngine message (.responded (.object category (some s))) =
        .ok (category.getD "", s, autoAction s)) ∧
    (∀ (message : String) (body : AIBody), ∃ c sev,
      callAIEngine message (.responded body) = .ok (c, sev, autoAction sev)) := by
  refine ⟨?_, ?_, ?_, ?_, ?_, ?_, autoAction_cases s, ?_, ?_⟩
  · intro h; subst h; simp [autoAction]
  · intro h; subst h; simp [autoAction]
  · intro h1 h2; simp [autoAction, h1, h2]
  · simp [autoAction]
  · simp [autoAction]
  · simp [autoAction]
  · intro message category; rfl
  · intro message body
    exact ⟨_, _, callAIEngine_responded message body⟩

/-- C2: for a request with a non-empty message, when the classification client returns
category `c`, severity `s` (and action `a`) and the insert succeeds with `id` and a
timestamp `created` of a year in 0..9999, then `a` is the action rule applied to `s`,
the handler issues exactly one insert, of the row (message, c, s, action), the table
gains exactly that row with the store-assigned id and timestamp, and the response has
status 200 and a JSON body that is that incident; members of the request body other
than `message` have no influence on the outcome. -/
theorem C2_ingest_success (body : ReqBody) (ai : AIReply) (ins : InsertReply) (t : Table)
    (c s a : String) (id : Int) (created : Time)
    (hm : decodePayload body ≠ "")
    (hcls : callAIEngine (decodePayload body) ai = .ok (c, s, a))
    (hins : (insertIncident t ins (decodePayload body) c s a).1 = .ok (id, created))
    (htime : marshalableTime created = true) :
    a = autoAction s ∧
    ingestHandler body ai ins t =
      ⟨⟨200, "application/json",
          .json (.object ⟨id, decodePayload body, c, s, autoAction s, created⟩)⟩,
       t ++ [⟨id, decodePayload body, c, s, autoAction s, created⟩],
       [.aiPost (decodePayload body), .dbInsert (decodePayload body) c s (autoAction s)]⟩ ∧
    (ingestHandler body ai ins t).resp.status = 200 ∧
    (ingestHandler body ai ins t).resp.body =
      .json (.object ⟨id, decodePayload body, c, s, autoAction s, created⟩) ∧
    (ingestHandler body ai ins t).resp.incidents =
      [⟨id, decodePayload body, c, s, autoAction s, created⟩] ∧
    (ingestHandler body ai ins t).table =
      t ++ [⟨id, decodePayload body, c, s, autoAction s, created⟩] ∧
    ((ingestHandler body ai ins t).calls.filter Call.isInsert) =
      [.dbInsert (decodePayload body) c s (autoAction s)] ∧
    (∀ (message : Option String) (extra1 extra2 : List (String × String)),
      ingestHandler (.object message extra1) ai ins t =
        ingestHandler (.object message extra2) ai ins t) := by
  have ha : a = autoAction s := by
    obtain ⟨ab, _, _, _, h⟩ := callAIEngine_ok_inv _ _ _ _ _ hcls
    exact h
  have hout := ingestHandler_insert_ok body ai ins t c s a id created hm hcls hins
  have hw : writeJSON (.object ⟨id, decodePayload body, c, s, a, created⟩) =
      ⟨200, "application/json", .json (.object ⟨id, decodePayload body, c, s, a, created⟩)⟩ := by
    simp [writeJSON, Json.marshalable, htime, StatusOK]
  rw [hw] at hout
  subst ha
  rw [hout]
  refine ⟨rfl, rfl, rfl, rfl, rfl, rfl, rfl, ?_⟩
  intro message extra1 extra2; rfl

/-- Witness of C2: "disk full" classified as ("infra", "critical") is stored and
returned with action "Escalate immediately" and the id of the store, not the id
member of the request. -/
theorem C2_ingest_success_witness :
    ingestHandler (.object (some "disk full") [("id", "999")])
        (.responded (.object (some "infra") (some "critical"))) (.assigned 1 1700000000) [] =
      ⟨⟨200, "application/json",
          .json (.object ⟨1, "disk full", "infra", "critical", "Escalate immediately",
            1700000000⟩)⟩,
       [⟨1, "disk full", "infra", "critical", "Escalate immediately", 1700000000⟩],
       [.aiPost "disk full", .dbInsert "disk full" "infra" "critical" "Escalate immediately"]⟩ :=
  (C2_ingest_success (.object (some "disk full") [("id", "999")])
    (.responded (.object (some "infra") (some "critical"))) (.assigned 1 1700000000) []
    "infra" "critical" "Escalate immediately" 1 1700000000 (by decide) rfl rfl rfl).2.1

/-- C3: a request whose decoded message is empty (the body cannot be decoded, has no
string member `message`, or has an empty one) is answered with status 400; the
handler calls neither the classifier nor the store and the table is unchanged. -/
theorem C3_ingest_empty_message (body : ReqBody) (ai : AIReply) (ins : InsertReply)
    (t : Table) (h : decodePayload body = "") :
    (ingestHandler body ai ins t).resp = httpError "Message required" StatusBadRequest ∧
    (ingestHandler body ai ins t).resp.status = 400 ∧
    (ingestHandler body ai ins t).calls = [] ∧
    (ingestHandler body ai ins t).table = t := by
  rw [ingestHandler_empty body ai ins t h]
  exact ⟨rfl, rfl, rfl, rfl⟩

/-- Witness of C3: an empty message, a missing message and an undecodable body, each
with a classifier and a store that would succeed, on a table of one row. -/
theorem C3_ingest_empty_message_witness :
    decodePayload (.object (some "") []) = "" ∧
    decodePayload (.object none [("msg", "x")]) = "" ∧
    decodePayload .undecodable = "" ∧
    (ingestHandler (.object (some "") []) (.responded (.object (some "infra") (some "high")))
        (.assigned 2 50) [⟨1, "a", "b", "high", "Investigate within 30 minutes", 10⟩]).resp.status
      = 400 ∧
    (ingestHandler (.object (some "") []) (.responded (.object (some "infra") (some "high")))
        (.assigned 2 50) [⟨1, "a", "b", "high", "Investigate within 30 minutes", 10⟩]).table
      = [⟨1, "a", "b", "high", "Investigate within 30 minutes", 10⟩] :=
  have h := C3_ingest_empty_message (.object (some "") [])
    (.responded (.object (some "infra") (some "high"))) (.assigned 2 50)
    [⟨1, "a", "b", "high", "Investigate within 30 minutes", 10⟩] rfl
  ⟨rfl, rfl, rfl, h.2.1, h.2.2.2⟩

/-- C4: for a non-empty message, when `http.Post` to the classification endpoint
returns an error, `callAIEngine` returns that error, the handler answers with status
500, its only outbound call is the classification request (no insert is attempted)
and the table is unchanged. -/
theorem C4_ingest_unreachable (body : ReqBody) (err : String) (ins : InsertReply)
    (t : Table) (h : decodePayload body ≠ "") :
    callAIEngine (decodePayload body) (.unreachable err) = .error err ∧
    (ingestHandler body (.unreachable err) ins t).resp =
      httpError ("AI Engine error: " ++ err) StatusInternalServerError ∧
    (ingestHandler body (.unreachable err) ins t).resp.status = 500 ∧
    (ingestHandler body (.unreachable err) ins t).calls = [.aiPost (decodePayload body)] ∧
    (ingestHandler body (.unreachable err) ins t).calls.filter Call.isInsert = [] ∧
    (ingestHandler body (.unreachable err) ins t).table = t := by
  rw [ingestHandler_unreachable body err ins t h]
  exact ⟨rfl, rfl, rfl, rfl, rfl, rfl⟩

/-- Witness of C4: "server down" with the endpoint unreachable and a store that would
accept the row. -/
theorem C4_ingest_unreachable_witness :
    (ingestHandler (.object (some "server down") []) (.unreachable "connection refused")
        (.assigned 1 50) []).resp.status = 500 ∧
    (ingestHandler (.object (some "server down") []) (.unreachable "connection refused")
        (.assigned 1 50) []).table = [] :=
  have h := C4_ingest_unreachable (.object (some "server down") []) "connection refused"
    (.assigned 1 50) [] (by decide)
  ⟨h.2.2.1, h.2.2.2.2.2⟩

/-- C5 on the code: the endpoint answers "disk full" with a body that is not JSON.
`callAIEngine` returns no error but blank category and severity, and `ingestHandler`
stores the row with blank labels and answers 200. -/
theorem C5_malformed_reply_is_stored :
    callAIEngine "disk full" (.responded .malformed) = .ok ("", "", "No action required") ∧
    ingestHandler (.object (some "disk full") []) (.responded .malformed)
        (.assigned 1 1700000000) [] =
      ⟨⟨200, "application/json",
          .json (.object ⟨1, "disk full", "", "", "No action required", 1700000000⟩)⟩,
       [⟨1, "disk full", "", "", "No action required", 1700000000⟩],
       [.aiPost "disk full", .dbInsert "disk full" "" "" "No action required"]⟩ ∧
    (ingestHandler (.object (some "disk full") []) (.responded .malformed)
        (.assigned 1 1700000000) []).resp.status = 200 :=
  ⟨rfl, rfl, rfl⟩

/-- C6 as stated fails: "disk full" is classified, the store writes the row with id 2
but the connection is lost before the reply arrives. The insert returns an error and
the handler answers 500, yet the table is not the one before the request. -/
theorem C6_insert_error_row_stored :
    decodePayload (.object (some "disk full") []) ≠ "" ∧
    callAIEngine "disk full" (.responded (.object (some "infra") (some "critical"))) =
      .ok ("infra", "critical", "Escalate immediately") ∧
    (insertIncident [⟨1, "a", "b", "high", "Investigate within 30 minutes", 10⟩]
        (.lostReply 2 20 "connection lost") "disk full" "infra" "critical"
        "Escalate immediately").1 = .error "connection lost" ∧
    (ingestHandler (.object (some "disk full") [])
        (.responded (.object (some "infra") (some "critical")))
        (.lostReply 2 20 "connection lost")
        [⟨1, "a", "b", "high", "Investigate within 30 minutes", 10⟩]).resp.status = 500 ∧
    (ingestHandler (.object (some "disk full") [])
        (.responded (.object (some "infra") (some "critical")))
        (.lostReply 2 20 "connection lost")
        [⟨1, "a", "b", "high", "Investigate within 30 minutes", 10⟩]).table =
      [⟨1, "a", "b", "high", "Investigate within 30 minutes", 10⟩,
       ⟨2, "disk full", "infra", "critical", "Escalate immediately", 20⟩] ∧
    (ingestHandler (.object (some "disk full") [])
        (.responded (.object (some "infra") (some "critical")))
        (.lostReply 2 20 "connection lost")
        [⟨1, "a", "b", "high", "Investigate within 30 minutes", 10⟩]).table ≠
      [⟨1, "a", "b", "high", "Investigate within 30 minutes", 10⟩] := by
  refine ⟨by decide, rfl, rfl, rfl, rfl, ?_⟩
  decide

/-- C6, amended: for a non-empty message whose classification succeeds with (c, s, a),
when the insert returns the error `err` the handler answers with status 500 and a
plain-text body carrying no incident, the insert statement was issued exactly once,
and the handler writes nothing else: the table is the one that single statement
left, which is the table before the request or that table with the one complete
row (message, c, s, a) appended; it is the table before the request whenever the
store did not write the row and lose the reply. -/
theorem C6_ingest_insert_failure (body : ReqBody) (ai : AIReply) (ins : InsertReply)
    (t : Table) (c s a err : String)
    (hm : decodePayload body ≠ "")
    (hcls : callAIEngine (decodePayload body) ai = .ok (c, s, a))
    (hins : (insertIncident t ins (decodePayload body) c s a).1 = .error err) :
    (ingestHandler body ai ins t).resp =
      ⟨500, "text/plain; charset=utf-8", .text ("DB insert error: " ++ err ++ "\n")⟩ ∧
    (ingestHandler body ai ins t).resp.status = 500 ∧
    (ingestHandler body ai ins t).resp.incidents = [] ∧
    (ingestHandler body ai ins t).calls =
      [.aiPost (decodePayload body), .dbInsert (decodePayload body) c s a] ∧
    ((ingestHandler body ai ins t).calls.filter Call.isInsert).length = 1 ∧
    (ingestHandler body ai ins t).table = (insertIncident t ins (decodePayload body) c s a).2 ∧
    ((ingestHandler body ai ins t).table = t ∨
      ∃ id created, (ingestHandler body ai ins t).table =
        t ++ [⟨id, decodePayload body, c, s, a, created⟩]) ∧
    ((∀ id created e, ins ≠ .lostReply id created e) →
      (ingestHandler body ai ins t).table = t) := by
  rw [ingestHandler_insert_error body ai ins t c s a err hm hcls hins]
  refine ⟨rfl, rfl, rfl, rfl, rfl, rfl, ?_, ?_⟩
  · rcases insertIncident_table t ins (decodePayload body) c s a with h | ⟨id, created, _, h⟩
    · exact Or.inl h
    · exact Or.inr ⟨id, created, h⟩
  · intro hlost
    exact insertIncident_rejected t ins _ c s a err hins hlost

/-- Witness of C6: the store rejects the insert of "disk full", classified as
("infra", "critical"), into a table of one row. -/
theorem C6_ingest_insert_failure_witness :
    (ingestHandler (.object (some "disk full") [])
        (.responded (.object (some "infra") (some "critical"))) (.failed "connection lost")
        [⟨1, "a", "b", "high", "Investigate within 30 minutes", 10⟩]).resp.status = 500 ∧
    (ingestHandler (.object (some "disk full") [])
        (.responded (.object (some "infra") (some "critical"))) (.failed "connection lost")
        [⟨1, "a", "b", "high", "Investigate within 30 minutes", 10⟩]).table =
      [⟨1, "a", "b", "high", "Investigate within 30 minutes", 10⟩] :=
  have h := C6_ingest_insert_failure (.object (some "disk full") [])
    (.responded (.object (some "infra") (some "critical"))) (.failed "connection lost")
    [⟨1, "a", "b", "high", "Investigate within 30 minutes", 10⟩]
    "infra" "critical" "Escalate immediately" "connection lost" (by decide) rfl rfl
  ⟨h.2.1, h.2.2.2.2.2.2.2 (by intro id created e; exact InsertReply.noConfusion)⟩

/-- C8 on the code: on an empty table with a successful query the handler answers 200
and encodes the nil slice `list`, so the body is the JSON value `null` and not an
empty array. -/
theorem C8_empty_store_body_is_null :
    incidentsHandler (.rows []) [] =
      ⟨⟨200, "application/json", .json .null⟩, [], [.dbSelect]⟩ ∧
    (incidentsHandler (.rows []) []).resp.status = 200 ∧
    (incidentsHandler (.rows []) []).resp.body = .json .null ∧
    (incidentsHandler (.rows []) []).resp.body ≠ .json (.array []) :=
  ⟨rfl, rfl, rfl, by decide⟩

/-- C9 on the code: a failed query is answered with 500, but a failure while reading
a row is not. On a table of two rows, when `rows.Scan` fails at the message column
of the first row of the result the handler answers 200 with an incident in its place
whose fields after the id are zero-valued, and when `rows.Next` fails after the first
row it answers 200 with the second row missing. -/
theorem C9_row_read_failure_is_swallowed :
    (incidentsHandler (.failed "connection lost")
        [⟨1, "disk full", "infra", "critical", "Escalate immediately", 10⟩,
         ⟨2, "slow page", "web", "low", "No action required", 20⟩]).resp.status = 500 ∧
    (incidentsHandler (.rows [.scanErr 1])
        [⟨1, "disk full", "infra", "critical", "Escalate immediately", 10⟩,
         ⟨2, "slow page", "web", "low", "No action required", 20⟩]).resp =
      ⟨200, "application/json", .json (.array [⟨2, "", "", "", "", 0⟩,
        ⟨1, "disk full", "infra", "critical", "Escalate immediately", 10⟩])⟩ ∧
    (incidentsHandler (.rows [.ok, .nextErr])
        [⟨1, "disk full", "infra", "critical", "Escalate immediately", 10⟩,
         ⟨2, "slow page", "web", "low", "No action required", 20⟩]).resp =
      ⟨200, "application/json",
        .json (.array [⟨2, "slow page", "web", "low", "No action required", 20⟩])⟩ := by
  refine ⟨rfl, ?_, ?_⟩ <;> decide

/-- C7: on every table that respects the primary key and holds timestamps of years in
0..9999, when the query and the reading of its rows succeed, `incidentsHandler`
answers 200 with a JSON body listing every stored incident exactly once, by strictly
descending id (the body is that array, or `null` when the table is empty); and after
three successful ingests A, B, C whose ids increase and exceed the ids already
stored, it lists C, B, A, in this order, ahead of what it listed before. -/
theorem C7_listing_newest_first (t : Table) (reads : List RowRead)
    (hpk : uniqueIds t) (hreads : ∀ r ∈ reads, r = RowRead.ok)
    (htime : ∀ r ∈ t, marshalableTime r.CreatedAt = true) :
    (incidentsHandler (.rows reads) t).resp.status = 200 ∧
    (incidentsHandler (.rows reads) t).resp.incidents.Perm t ∧
    ((incidentsHandler (.rows reads) t).resp.incidents.map Incident.ID).Sorted (· > ·) ∧
    ((incidentsHandler (.rows reads) t).resp.body =
        .json (.array (incidentsHandler (.rows reads) t).resp.incidents) ∨
      (t = [] ∧ (incidentsHandler (.rows reads) t).resp.body = .json .null)) ∧
    ∀ (ba bb bc : ReqBody) (aa ab ac : AIReply) (ia ib ic : InsertReply) (A B C : Incident),
      (ingestHandler ba aa ia t).resp = ⟨200, "application/json", .json (.object A)⟩ →
      (ingestHandler bb ab ib (run [.ingest ba aa ia] t)).resp =
        ⟨200, "application/json", .json (.object B)⟩ →
      (ingestHandler bc ac ic (run [.ingest ba aa ia, .ingest bb ab ib] t)).resp =
        ⟨200, "application/json", .json (.object C)⟩ →
      (∀ r ∈ t, r.ID < A.ID) → A.ID < B.ID → B.ID < C.ID →
      (incidentsHandler (.rows reads)
          (run [.ingest ba aa ia, .ingest bb ab ib, .ingest bc ac ic] t)).resp.body =
        .json (.array (C :: B :: A :: (incidentsHandler (.rows reads) t).resp.incidents)) ∧
      (incidentsHandler (.rows reads)
          (run [.ingest ba aa ia, .ingest bb ab ib, .ingest bc ac ic] t)).resp.incidents =
        C :: B :: A :: (incidentsHandler (.rows reads) t).resp.incidents := by
  have hlist := incidentsHandler_all_ok t reads hreads htime
  refine ⟨hlist.1, ?_, ?_, ?_, ?_⟩
  · rw [hlist.2.1]; exact selectAll_perm t
  · rw [hlist.2.1]; exact selectAll_descending t hpk
  · rw [hlist.2.1]; exact hlist.2.2
  · intro ba bb bc aa ab ac ia ib ic A B C hA hB hC hnew hAB hBC
    obtain ⟨h1, hAt⟩ := ingestHandler_table_of_resp ba aa ia t A hA
    have h1 : run [.ingest ba aa ia] t = t ++ [A] := h1
    rw [h1] at hB
    obtain ⟨h2, hBt⟩ := ingestHandler_table_of_resp bb ab ib _ B hB
    have h2 : run [.ingest ba aa ia, .ingest bb ab ib] t = (t ++ [A]) ++ [B] := by
      show (ingestHandler bb ab ib (run [.ingest ba aa ia] t)).table = _
      rw [h1]; exact h2
    rw [h2] at hC
    obtain ⟨h3, hCt⟩ := ingestHandler_table_of_resp bc ac ic _ C hC
    have h3 : run [.ingest ba aa ia, .ingest bb ab ib, .ingest bc ac ic] t =
        ((t ++ [A]) ++ [B]) ++ [C] := by
      show (ingestHandler bc ac ic (run [.ingest ba aa ia, .ingest bb ab ib] t)).table = _
      rw [h2]; exact h3
    have hA2 : ∀ r ∈ t ++ [A], r.ID < B.ID := by
      intro r hr
      rcases List.mem_append.1 hr with hr | hr
      · exact lt_trans (hnew r hr) hAB
      · rw [List.mem_singleton.1 hr]; exact hAB
    have hB2 : ∀ r ∈ (t ++ [A]) ++ [B], r.ID < C.ID := by
      intro r hr
      rcases List.mem_append.1 hr with hr | hr
      · exact lt_trans (hA2 r hr) hBC
      · rw [List.mem_singleton.1 hr]; exact hBC
    have htime3 : ∀ r ∈ ((t ++ [A]) ++ [B]) ++ [C], marshalableTime r.CreatedAt = true := by
      intro r hr
      simp only [List.mem_append, List.mem_singleton] at hr
      rcases hr with ((hr | hr) | hr) | hr
      · exact htime r hr
      · rw [hr]; exact hAt
      · rw [hr]; exact hBt
      · rw [hr]; exact hCt
    have hsel : selectAll (((t ++ [A]) ++ [B]) ++ [C]) = C :: B :: A :: selectAll t := by
      rw [selectAll_append_newest _ C hB2, selectAll_append_newest _ B hA2,
        selectAll_append_newest _ A hnew]
    have hfin := incidentsHandler_all_ok _ reads hreads htime3
    rw [h3, hlist.2.1, hfin.2.1, hsel]
    refine ⟨?_, rfl⟩
    rcases hfin.2.2 with hb | ⟨hnil, _⟩
    · rw [hb, hsel]
    · simp at hnil

/-- Witness of C7: a table holding one row with id 1; "A", "B" and "C" are ingested
and given the ids 2, 3 and 7; the listing is C, B, A, then the old row. -/
theorem C7_listing_newest_first_witness :
    (incidentsHandler (.rows [])
      (run [.ingest (.object (some "A") []) (.responded (.object (some "infra") (some "high")))
              (.assigned 2 20),
            .ingest (.object (some "B") []) (.responded (.object (some "web") (some "low")))
              (.assigned 3 30),
            .ingest (.object (some "C") []) (.responded (.object (some "db") (some "critical")))
              (.assigned 7 40)]
        [⟨1, "old", "net", "low", "No action required", 10⟩])).resp.body =
      .json (.array [⟨7, "C", "db", "critical", "Escalate immediately", 40⟩,
       ⟨3, "B", "web", "low", "No action required", 30⟩,
       ⟨2, "A", "infra", "high", "Investigate within 30 minutes", 20⟩,
       ⟨1, "old", "net", "low", "No action required", 10⟩]) :=
  ((C7_listing_newest_first [⟨1, "old", "net", "low", "No action required", 10⟩] []
    (by decide) (by simp) (by decide)).2.2.2.2
    (.object (some "A") []) (.object (some "B") []) (.object (some "C") [])
    (.responded (.object (some "infra") (some "high")))
    (.responded (.object (some "web") (some "low")))
    (.responded (.object (some "db") (some "critical")))
    (.assigned 2 20) (.assigned 3 30) (.assigned 7 40)
    ⟨2, "A", "infra", "high", "Investigate within 30 minutes", 20⟩
    ⟨3, "B", "web", "low", "No action required", 30⟩
    ⟨7, "C", "db", "critical", "Escalate immediately", 40⟩
    rfl rfl rfl (by decide) (by decide) (by decide)).1

/-- C10: starting from the empty table, after any finite sequence of ingest and list
requests, with any bodies and any behaviour of the classifier and of the store, every
row of the table has a non-empty message and an action equal to the action rule
applied to its own severity (and ids stay unique); a list request leaves the table as
it is, and an ingest request leaves it as it is or appends one row to it. -/
theorem C10_store_invariant (reqs : List Request) :
    (∀ r ∈ run reqs [], r.Message ≠ "" ∧ r.Action = autoAction r.Severity) ∧
    uniqueIds (run reqs []) ∧
    (∀ (q : QueryReply) (t : Table), (serve (.list q) t).table = t) ∧
    (∀ (body : ReqBody) (ai : AIReply) (ins : InsertReply) (t : Table),
      (serve (.ingest body ai ins) t).table = t ∨
      ∃ inc, (serve (.ingest body ai ins) t).table = t ++ [inc]) := by
  have h := run_preserves reqs [] (by simp) (by simp [uniqueIds])
  refine ⟨h.1, h.2, incidentsHandler_table, ?_⟩
  intro body ai ins t
  rcases ingestHandler_table body ai ins t with ht | ⟨inc, ht, _⟩
  · exact Or.inl ht
  · exact Or.inr ⟨inc, ht⟩

end IncidentResponse
